import Mathlib

/-!
Shallow embedding of the csvfire row-processing pipeline (Go sources under
`internal/validator`, `internal/request`, `internal/runner`, `internal/config`)
together with theorems checking the natural-language specification against it.

Modelling conventions:
* Go strings are Lean `String`s; `len(s)` on a Go string is the UTF-8 byte
  count, embedded as `String.utf8ByteSize`.
* Go maps `map[string]string` are association lists `List (String × String)`
  with first-match lookup; Go's unspecified map iteration order is fixed to
  the list order (documented where it matters).
* Machine integers are `Nat`/`Int`; 32-bit arithmetic inside SHA-256 is done
  explicitly modulo `2 ^ 32`.
* External, impure or library primitives that no claim depends on
  (strconv/decimal/date parsing, `regexp` matching, `text/template`
  rendering, the HTTP round-trip itself, the wall clock used by row rules)
  are parameters collected in a `Prims` record; every theorem that does not
  depend on them quantifies over an arbitrary `Prims`.
-/

/-- UTF-8 encoding of one scalar value, as Go produces for `[]byte(string)`. -/
def utf8EncChar (c : Char) : List Nat :=
  let u := c.toNat
  if u < 0x80 then [u]
  else if u < 0x800 then
    [0xC0 + u / 64, 0x80 + u % 64]
  else if u < 0x10000 then
    [0xE0 + u / 4096, 0x80 + (u / 64) % 64, 0x80 + u % 64]
  else
    [0xF0 + u / 262144, 0x80 + (u / 4096) % 64, 0x80 + (u / 64) % 64, 0x80 + u % 64]

/-- The UTF-8 bytes of a string (Go `[]byte(s)`). -/
def utf8Bytes (s : String) : List Nat :=
  s.toList.flatMap utf8EncChar

/-- Right rotation of a 32-bit word. -/
def rotr32 (n x : Nat) : Nat :=
  ((x >>> n) ||| (x <<< (32 - n))) % 4294967296

/-- The SHA-256 round constants (FIPS 180-4), in decimal. -/
def shaK : List Nat :=
  [1116352408, 1899447441, 3049323471, 3921009573, 961987163,
   1508970993, 2453635748, 2870763221, 3624381080, 310598401,
   607225278, 1426881987, 1925078388, 2162078206, 2614888103,
   3248222580, 3835390401, 4022224774, 264347078, 604807628,
   770255983, 1249150122, 1555081692, 1996064986, 2554220882,
   2821834349, 2952996808, 3210313671, 3336571891, 3584528711,
   113926993, 338241895, 666307205, 773529912, 1294757372,
   1396182291, 1695183700, 1986661051, 2177026350, 2456956037,
   2730485921, 2820302411, 3259730800, 3345764771, 3516065817,
   3600352804, 4094571909, 275423344, 430227734, 506948616,
   659060556, 883997877, 958139571, 1322822218, 1537002063,
   1747873779, 1955562222, 2024104815, 2227730452, 2361852424,
   2428436474, 2756734187, 3204031479, 3329325298]

/-- The SHA-256 initial hash state, in decimal. -/
def shaH0 : List Nat :=
  [1779033703, 3144134277, 1013904242, 2773480762, 1359893119,
   2600822924, 528734635, 1541459225]

/-- Big-endian 8-byte encoding of a 64-bit length. -/
def be64 (n : Nat) : List Nat :=
  [(n >>> 56) % 256, (n >>> 48) % 256, (n >>> 40) % 256, (n >>> 32) % 256,
   (n >>> 24) % 256, (n >>> 16) % 256, (n >>> 8) % 256, n % 256]

/-- SHA-256 message padding: `0x80`, zeros to 56 mod 64, then the bit length. -/
def shaPad (msg : List Nat) : List Nat :=
  let k := (64 - (msg.length + 9) % 64) % 64
  msg ++ 0x80 :: (List.replicate k 0 ++ be64 (8 * msg.length))

/-- Splits a byte list into 64-byte blocks.  The fuel argument (the list
length at the top call) makes the recursion structural, so the function
computes by reduction; every step consumes a non-empty list, so the fuel
never runs out. -/
def chunk64Go : Nat → List Nat → List (List Nat)
  | _, [] => []
  | 0, _ :: _ => []
  | fuel + 1, b :: rest => ((b :: rest).take 64) :: chunk64Go fuel ((b :: rest).drop 64)

/-- Splits a byte list into 64-byte blocks. -/
def chunk64 (l : List Nat) : List (List Nat) :=
  chunk64Go l.length l

/-- The 64-entry SHA-256 message schedule for one block. -/
def shaSchedule (block : List Nat) : Array Nat :=
  let w0 : Array Nat := (Array.range 16).map fun i =>
    ((block.getD (4 * i) 0) <<< 24) + ((block.getD (4 * i + 1) 0) <<< 16) +
      ((block.getD (4 * i + 2) 0) <<< 8) + block.getD (4 * i + 3) 0
  (List.range 48).foldl
    (fun w i =>
      let j := i + 16
      let x15 := w.getD (j - 15) 0
      let x2 := w.getD (j - 2) 0
      let s0 := (rotr32 7 x15) ^^^ (rotr32 18 x15) ^^^ (x15 >>> 3)
      let s1 := (rotr32 17 x2) ^^^ (rotr32 19 x2) ^^^ (x2 >>> 10)
      w.push ((w.getD (j - 16) 0 + s0 + w.getD (j - 7) 0 + s1) % 4294967296))
    w0

/-- One SHA-256 compression step over a 64-byte block. -/
def shaCompress (h : List Nat) (block : List Nat) : List Nat :=
  let w := shaSchedule block
  let st := (List.range 64).foldl
    (fun st i =>
      match st with
      | [a, b, c, d, e, f, g, hh] =>
        let s1 := (rotr32 6 e) ^^^ (rotr32 11 e) ^^^ (rotr32 25 e)
        let ch := (e &&& f) ^^^ ((e ^^^ 4294967295) &&& g)
        let t1 := (hh + s1 + ch + shaK.getD i 0 + w.getD i 0) % 4294967296
        let s0 := (rotr32 2 a) ^^^ (rotr32 13 a) ^^^ (rotr32 22 a)
        let mj := (a &&& b) ^^^ (a &&& c) ^^^ (b &&& c)
        let t2 := (s0 + mj) % 4294967296
        [(t1 + t2) % 4294967296, a, b, c, (d + t1) % 4294967296, e, f, g]
      | other => other)
    h
  List.zipWith (fun x y => (x + y) % 4294967296) h st

/-- SHA-256 of a byte list, as 32 output bytes. -/
def sha256 (msg : List Nat) : List Nat :=
  let final := (chunk64 (shaPad msg)).foldl shaCompress shaH0
  final.flatMap fun wrd =>
    [(wrd >>> 24) % 256, (wrd >>> 16) % 256, (wrd >>> 8) % 256, wrd % 256]

/-- Lower-case hex digit. -/
def hexChar (n : Nat) : Char :=
  if n < 10 then Char.ofNat (48 + n) else Char.ofNat (87 + n)

/-- Two-digit lower-case hex of a byte (Go `%x` on a byte). -/
def byteHex (b : Nat) : List Char :=
  [hexChar (b / 16), hexChar (b % 16)]

/-- Hex-encoded SHA-256 digest of a string's UTF-8 bytes, as Go
`fmt.Sprintf("%x", sha256.Sum256([]byte(s)))` produces. -/
def sha256hex (s : String) : String :=
  String.mk ((sha256 (utf8Bytes s)).flatMap byteHex)

/-- First-match lookup in an association list (Go map read `m[k]`). -/
def mapFind : List (String × String) → String → Option String
  | [], _ => none
  | (k, v) :: rest, key => if k = key then some v else mapFind rest key

/-- Insert-or-replace in an association list (Go map write `m[k] = v`). -/
def mapSet : List (String × String) → String → String → List (String × String)
  | [], key, v => [(key, v)]
  | (k, w) :: rest, key, v =>
    if k = key then (k, v) :: rest else (k, w) :: mapSet rest key v

/-- Whether `pat` is an initial segment of `l`. -/
def leadsWith : List Char → List Char → Bool
  | [], _ => true
  | _ :: _, [] => false
  | p :: ps, c :: cs => p == c && leadsWith ps cs

/-- Go `strings.Contains s sub` over the characters of the strings. -/
def containsSub (s sub : String) : Bool :=
  go s.toList sub.toList
where
  go : List Char → List Char → Bool
    | _, [] => true
    | [], _ :: _ => false
    | c :: cs, p :: ps => leadsWith (p :: ps) (c :: cs) || go cs (p :: ps)

/-- Characters with the Unicode White_Space property, the set trimmed by Go's
`strings.TrimSpace` (via `unicode.IsSpace`). -/
def goIsSpace (c : Char) : Bool :=
  [9, 10, 11, 12, 13, 32, 0x85, 0xA0, 0x1680, 0x2000, 0x2001, 0x2002, 0x2003,
   0x2004, 0x2005, 0x2006, 0x2007, 0x2008, 0x2009, 0x200A, 0x2028, 0x2029,
   0x202F, 0x205F, 0x3000].contains c.toNat

/-- Go `strings.TrimSpace`. -/
def goTrimSpace (s : String) : String :=
  String.mk (((s.toList.dropWhile goIsSpace).reverse.dropWhile goIsSpace).reverse)

/-- Replaces every non-overlapping occurrence of the non-empty pattern
`p :: ps` in the input by `rep`, scanning left to right. -/
def repAllAux (p : Char) (ps rep : List Char) : List Char → List Char
  | [] => []
  | c :: rest =>
    if leadsWith (p :: ps) (c :: rest) then
      rep ++ repAllAux p ps rep ((c :: rest).drop (ps.length + 1))
    else
      c :: repAllAux p ps rep rest
termination_by l => l.length
decreasing_by
  · simp only [List.length_drop]
    simp only [List.length_cons]
    omega
  · simp

/-- Go `strings.ReplaceAll s from to`.  With an empty pattern Go inserts `to`
before every rune and once at the end. -/
def goReplaceAll (s pat rep : String) : String :=
  match pat.toList with
  | [] => String.mk (rep.toList ++ s.toList.flatMap (fun c => c :: rep.toList))
  | p :: ps => String.mk (repAllAux p ps rep.toList s.toList)

/-- A row of input data: Go `map[string]string`, column name to raw value. -/
abbrev RowData := List (String × String)

/-- config.PreprocessRule.  The Go `Replace` field is a `map[string]string`
iterated in unspecified order; it is embedded as a list of pairs applied in
list order. -/
structure PreprocessRule where
  remove : List String
  replaceList : List (String × String)
  trim : Bool
deriving Repr, DecidableEq

/-- config.ValidationRule. -/
structure ValidationRule where
  regex : String
  message : String
deriving Repr, DecidableEq

/-- config.TransformRule. -/
structure TransformRule where
  formatKoreanPhoneE164 : Bool
deriving Repr, DecidableEq

/-- config.NormalizeRule (the `Map` field as an association list). -/
structure NormalizeRule where
  map : List (String × String)
deriving Repr, DecidableEq

/-- config.RowRule. -/
structure RowRule where
  name : String
  expr : String
deriving Repr, DecidableEq

/-- config.UniquenessRule. -/
structure UniquenessRule where
  columns : List String
deriving Repr, DecidableEq

/-- config.NullPolicy. -/
structure NullPolicy where
  treatEmptyAsNull : Bool
deriving Repr, DecidableEq

/-- config.ColumnSchema.  `MinLen`/`MaxLen` are Go `*int`, embedded as
`Option Int`.  The `Range` field of the Go struct is read by no code path
modelled here (the validator never consults it) and is omitted. -/
structure ColumnSchema where
  name : String
  colType : String
  required : Bool
  secret : Bool
  minLen : Option Int
  maxLen : Option Int
  regex : String
  enum : List String
  format : String
  preprocess : List PreprocessRule
  validators : List ValidationRule
  transform : List TransformRule
  normalize : Option NormalizeRule
deriving Repr, DecidableEq

/-- config.Schema. -/
structure Schema where
  version : Nat
  columns : List ColumnSchema
  rowRules : List RowRule
  uniqueness : List UniquenessRule
  nullPolicy : NullPolicy
deriving Repr, DecidableEq

/-- config.SuccessCondition. -/
structure SuccessCondition where
  statusIn : List Nat
  responseKeys : List (String × String)
deriving Repr, DecidableEq

/-- config.RequestConfig (headers as an association list).  The `Timeout`
string field of the Go struct is consumed only while parsing the
configuration file and is read by no modelled path; it is omitted. -/
structure RequestConfig where
  method : String
  url : String
  headers : List (String × String)
  body : String
  proxy : String
  success : SuccessCondition
deriving Repr, DecidableEq

/-- request.RequestData, the rendered request. -/
structure RenderedRequest where
  url : String
  method : String
  headers : List (String × String)
  body : String
  proxy : String
  hash : String
deriving Repr, DecidableEq

/-- request.RequestResult.  The response `Headers` map and the wall-clock
`LatencyMs` field are not modelled (time is outside the embedding);
`latencyMs` is carried as a constant 0. -/
structure RequestResult where
  statusCode : Nat
  success : Bool
  latencyMs : Int
  retries : Nat
  errorCategory : String
  errorDetail : String
  responsePreview : String
  requestID : String
deriving Repr, DecidableEq

/-- validator.ValidationError. -/
structure ValidationError where
  row : Nat
  column : String
  value : String
  message : String
deriving Repr, DecidableEq

/-- validator.ValidationResult. -/
structure ValidationResult where
  valid : Bool
  errors : List ValidationError
  data : RowData
deriving Repr, DecidableEq

/-- External primitives the embedded code calls but whose internals no claim
depends on.  Each field models one impure or library call of the Go code:
`strconv.Atoi` / `strconv.ParseFloat` / `decimal.NewFromString` error texts,
`validateDate` (which consults the current clock for the age window),
`regexp.MatchString` (`Except` carries a pattern-compilation error),
`evaluateRowRule` (clock-dependent), `TemplateRenderer.Render`
(text/template execution) and `Client.Execute` (the HTTP round-trip). -/
structure Prims where
  atoiErr : String → Option String
  parseFloatErr : String → Option String
  decimalErr : String → Option String
  dateErr : String → String → Option String
  regexMatch : String → String → Except String Bool
  evalRowRule : String → RowData → Bool
  render : RowData → Except String RenderedRequest
  httpExecute : RenderedRequest → String → RequestResult

/-- validator.Validator: the schema plus the uniqueness-tracking state.  Go
keeps `seen` as `map[col]map[value]bool`; membership of `(col, value)` in the
list below embeds exactly the `true` entries of that nested map. -/
structure Validator where
  schema : Schema
  seen : List (String × String)
deriving Repr, DecidableEq

/-- validator.NewValidator: uniqueness tracking starts empty. -/
def newValidator (s : Schema) : Validator :=
  { schema := s, seen := [] }

/-- validator.(*Validator).preprocess, one rule: trim, then removals in
order, then replacements in (map-iteration) order. -/
def applyPreprocessRule (value : String) (rule : PreprocessRule) : String :=
  let v1 := if rule.trim then goTrimSpace value else value
  let v2 := rule.remove.foldl (fun acc toRemove => goReplaceAll acc toRemove "") v1
  rule.replaceList.foldl (fun acc fr => goReplaceAll acc fr.1 fr.2) v2

/-- validator.(*Validator).preprocess over the rule list. -/
def preprocess (value : String) (rules : List PreprocessRule) : String :=
  rules.foldl applyPreprocessRule value

/-- validator.formatKoreanPhoneE164 (in the validator package).  Go strips
`\D` (ASCII non-digits), then tests the byte length and the `0` / `01`
leading bytes; the stripped string is all ASCII digits, so characters and
bytes coincide. -/
def formatKoreanPhoneE164 (phone : String) : String :=
  let cleaned := phone.toList.filter Char.isDigit
  if cleaned.length == 10 && leadsWith ['0'] cleaned then
    "+82" ++ String.mk (cleaned.drop 1)
  else if cleaned.length == 11 && leadsWith ['0', '1'] cleaned then
    "+82" ++ String.mk (cleaned.drop 1)
  else
    String.mk cleaned

/-- request.toE164KR (the template function in template.go); its Go body is
the same algorithm as validator.formatKoreanPhoneE164. -/
def toE164KR (phone : String) : String :=
  let cleaned := phone.toList.filter Char.isDigit
  if cleaned.length == 10 && leadsWith ['0'] cleaned then
    "+82" ++ String.mk (cleaned.drop 1)
  else if cleaned.length == 11 && leadsWith ['0', '1'] cleaned then
    "+82" ++ String.mk (cleaned.drop 1)
  else
    String.mk cleaned

/-- Modelled from the spec (§4.2 step 11), for comparison with the two code
functions: strip non-digits; if the result is 10 digits starting `0` or 11
digits starting `01`, prepend `+82` after dropping the leading `0`;
otherwise emit the digits unchanged. -/
def specE164KR (phone : String) : String :=
  let ds := phone.toList.filter Char.isDigit
  if (ds.length = 10 ∧ ds.take 1 = ['0']) ∨ (ds.length = 11 ∧ ds.take 2 = ['0', '1']) then
    "+82" ++ String.mk (ds.drop 1)
  else
    String.mk ds

/-- validator.(*Validator).transform. -/
def transform (value : String) (rules : List TransformRule) : String :=
  rules.foldl
    (fun acc rule =>
      if rule.formatKoreanPhoneE164 then formatKoreanPhoneE164 acc else acc)
    value

/-- validator.(*Validator).validateType.  The switch falls through to the
external parsers for the non-string types (see `Prims`). -/
def validateType (p : Prims) (value colType format : String) : Option String :=
  if colType = "string" then none
  else if colType = "int" then
    match p.atoiErr value with
    | none => none
    | some e => some ("invalid integer: " ++ e)
  else if colType = "float" then
    match p.parseFloatErr value with
    | none => none
    | some e => some ("invalid float: " ++ e)
  else if colType.startsWith "decimal(" then
    match p.decimalErr value with
    | none => none
    | some e => some ("invalid decimal: " ++ e)
  else if colType.startsWith "date" then
    p.dateErr value format
  else
    some ("unsupported column type: " ++ colType)

/-- The min-length failure message of validator.validateValue. -/
def tooShortMsg (m : Int) : String :=
  "value too short (min " ++ toString m ++ " characters)"

/-- The max-length failure message of validator.validateValue. -/
def tooLongMsg (m : Int) : String :=
  "value too long (max " ++ toString m ++ " characters)"

/-- The `MinLen`/`MaxLen` checks of validator.validateValue.  Go compares
`len(value)` — the UTF-8 byte count — against the configured bounds. -/
def lenCheck (value : String) (col : ColumnSchema) : Option String :=
  match col.minLen with
  | some m =>
    if (value.utf8ByteSize : Int) < m then some (tooShortMsg m)
    else
      match col.maxLen with
      | some mx => if (value.utf8ByteSize : Int) > mx then some (tooLongMsg mx) else none
      | none => none
  | none =>
    match col.maxLen with
    | some mx => if (value.utf8ByteSize : Int) > mx then some (tooLongMsg mx) else none
    | none => none

/-- The custom-validator loop of validator.validateValue. -/
def customChecks (p : Prims) (value : String) : List ValidationRule → Option String
  | [] => none
  | rule :: rest =>
    if rule.regex ≠ "" then
      match p.regexMatch rule.regex value with
      | Except.error e => some ("custom validation error: " ++ e)
      | Except.ok matched =>
        if matched then customChecks p value rest
        else if rule.message = "" then some "value does not match validation rule"
        else some rule.message
    else
      customChecks p value rest

/-- validator.(*Validator).validateValue: type, length, regex, enum, then
custom validators, first failure wins. -/
def validateValue (p : Prims) (value : String) (col : ColumnSchema) : Option String :=
  match validateType p value col.colType col.format with
  | some e => some e
  | none =>
    match lenCheck value col with
    | some e => some e
    | none =>
      let regexStep : Option String :=
        if col.regex ≠ "" then
          match p.regexMatch col.regex value with
          | Except.error e => some ("regex validation error: " ++ e)
          | Except.ok matched =>
            if matched then none else some "value does not match required pattern"
        else none
      match regexStep with
      | some e => some e
      | none =>
        let enumStep : Option String :=
          if col.enum ≠ [] then
            if col.enum.contains value then none
            else some ("value must be one of: " ++ String.intercalate ", " col.enum)
          else none
        match enumStep with
        | some e => some e
        | none => customChecks p value col.validators

/-- One iteration of the per-column loop of validator.ValidateRow: the
errors it appends (zero or one) and the value it stores into
`result.Data[col.name]` (`none` when the `continue` branches skip the
store). -/
def processColumn (p : Prims) (np : NullPolicy) (rowNum : Nat) (row : RowData)
    (col : ColumnSchema) : List ValidationError × Option String :=
  let found := mapFind row col.name
  let value0 := found.getD ""
  let exists0 := found.isSome
  let exs := if np.treatEmptyAsNull && value0 == "" then false else exists0
  let value := value0
  if col.required && (!exs || value == "") then
    ([⟨rowNum, col.name, value, "required field is missing or empty"⟩], none)
  else if !exs || value == "" then
    ([], some "")
  else
    let pv := preprocess value col.preprocess
    let pv :=
      match col.normalize with
      | some nr => (mapFind nr.map pv).getD pv
      | none => pv
    match validateValue p pv col with
    | some msg => ([⟨rowNum, col.name, value, msg⟩], none)
    | none => ([], some (transform pv col.transform))

/-- The per-column loop of validator.ValidateRow, accumulating errors and
the normalized-data map in column order. -/
def runColumns (p : Prims) (np : NullPolicy) (rowNum : Nat) (row : RowData) :
    List ColumnSchema → List ValidationError → RowData →
    List ValidationError × RowData
  | [], accErr, accData => (accErr, accData)
  | col :: rest, accErr, accData =>
    let (errs, entry) := processColumn p np rowNum row col
    let accData' :=
      match entry with
      | some v => mapSet accData col.name v
      | none => accData
    runColumns p np rowNum row rest (accErr ++ errs) accData'

/-- The duplicate-value message of validator.checkUniqueness. -/
def dupMsg : String := "duplicate value violates uniqueness constraint"

/-- The inner loops of validator.(*Validator).checkUniqueness, over the
concatenated column lists of all uniqueness rules: returns the updated seen
set, the validity flag and the appended errors. -/
def uniqCols (rowNum : Nat) (data : RowData) :
    List String → List (String × String) →
    List (String × String) × Bool × List ValidationError
  | [], seen => (seen, true, [])
  | col :: rest, seen =>
    let value := (mapFind data col).getD ""
    if value == "" then uniqCols rowNum data rest seen
    else if seen.contains (col, value) then
      let (seen', _, errs) := uniqCols rowNum data rest seen
      (seen', false, ⟨rowNum, col, value, dupMsg⟩ :: errs)
    else
      uniqCols rowNum data rest ((col, value) :: seen)

/-- validator.(*Validator).checkUniqueness (rule loop flattened into the
column list, preserving iteration order). -/
def checkUniqueness (s : Schema) (rowNum : Nat) (data : RowData)
    (seen : List (String × String)) :
    List (String × String) × Bool × List ValidationError :=
  uniqCols rowNum data (s.uniqueness.flatMap (fun r => r.columns)) seen

/-- An ASCII single quote, written without an apostrophe literal. -/
def sglQuote : String := String.singleton (Char.ofNat 39)

/-- validator.(*Validator).validateRowRules. -/
def runRowRules (p : Prims) (rowNum : Nat) (data : RowData) :
    List RowRule → Bool × List ValidationError
  | [] => (true, [])
  | r :: rest =>
    let (v, errs) := runRowRules p rowNum data rest
    if p.evalRowRule r.expr data then (v, errs)
    else
      (false,
       ⟨rowNum, "", "", "row rule " ++ sglQuote ++ r.name ++ sglQuote ++ " failed: " ++ r.expr⟩ :: errs)

/-- validator.(*Validator).ValidateRow: the per-column loop, then (only while
the row is still valid) the uniqueness check and the row rules.  Returns the
result and the validator with its mutated `seen` state.  `Valid` is `true`
exactly while no error has been appended, matching Go's flag. -/
def validateRow (p : Prims) (v : Validator) (rowNum : Nat) (row : RowData) :
    ValidationResult × Validator :=
  let (errs, data) := runColumns p v.schema.nullPolicy rowNum row v.schema.columns [] []
  if errs.isEmpty then
    let (seen', uValid, uErrs) := checkUniqueness v.schema rowNum data v.seen
    if uValid then
      let (rValid, rErrs) := runRowRules p rowNum data v.schema.rowRules
      ({ valid := rValid, errors := errs ++ uErrs ++ rErrs, data := data },
       { v with seen := seen' })
    else
      ({ valid := false, errors := errs ++ uErrs, data := data },
       { v with seen := seen' })
  else
    ({ valid := false, errors := errs, data := data }, v)

/-- Runs validateRow over a list of (row number, row) tasks, threading the
uniqueness state in order, and collects the results. -/
def runRows (p : Prims) (v : Validator) : List (Nat × RowData) → List ValidationResult
  | [] => []
  | (n, row) :: rest =>
    let (res, v') := validateRow p v n row
    res :: runRows p v' rest

/-- request.(*RequestConfig).IsSuccessStatus. -/
def isSuccessStatus (rc : RequestConfig) (statusCode : Nat) : Bool :=
  rc.success.statusIn.contains statusCode

/-- request.shouldRetry.  The Go function also receives the error value but
only consults the status code: 0 (no response), 5xx and 429 are retryable. -/
def shouldRetry (_errMsg : Option String) (statusCode : Nat) : Bool :=
  if statusCode = 0 then true
  else if 500 ≤ statusCode && statusCode < 600 then true
  else if statusCode = 429 then true
  else false

/-- request.categorizeError for a non-nil error, by substring match. -/
def categorizeError (e : String) : String :=
  if containsSub e "timeout" then "timeout"
  else if containsSub e "connection refused" then "connection_refused"
  else if containsSub e "no such host" then "dns_error"
  else if containsSub e "context canceled" then "canceled"
  else if containsSub e "context deadline exceeded" then "timeout"
  else "unknown"

/-- Takes the longest character whose UTF-8 size fits in `n` bytes.  Go's
`body[:200]` slices at the byte boundary and may cut a multi-byte rune in
half; the embedding keeps whole runes (no claim inspects the preview). -/
def takeBytes (n : Nat) : List Char → List Char
  | [] => []
  | c :: rest => if c.utf8Size ≤ n then c :: takeBytes (n - c.utf8Size) rest else []

/-- request.truncateResponse: at most 200 bytes, `"..."` appended when cut. -/
def truncateResponse (body : String) : String :=
  if body.utf8ByteSize ≤ 200 then body
  else String.mk (takeBytes 200 body.toList) ++ "..."

/-- The observable outcome of one executeRequest call: the HTTP status (0
when the transport failed), the response body, and the error (`none` when a
response was received and its body was read). -/
structure AttemptOutcome where
  status : Nat
  body : String
  errMsg : Option String
deriving Repr, DecidableEq

/-- The attempt loop of request.(*Client).Execute.  `attempts` maps the
attempt number to the outcome of that executeRequest call; `remaining` is
`maxRetries - attempt`; the pair carries `lastErr`.  Backoff sleeping and
context cancellation during the sleep are timing effects outside the
embedding (the loop proceeds to the next attempt); `jsonCheck` models
checkResponseConditions (JSON parsing). -/
def execLoop (cfg : RequestConfig) (jsonCheck : String → Bool)
    (attempts : Nat → AttemptOutcome) (attempt : Nat) :
    Nat → RequestResult → Option String → RequestResult × Option String
  | remaining, res, lastErr =>
    let res := { res with retries := attempt }
    let o := attempts attempt
    let res := { res with statusCode := o.status }
    match o.errMsg with
    | some e =>
      let res := { res with errorCategory := categorizeError e, errorDetail := e }
      if !shouldRetry (some e) o.status then (res, some e)
      else
        match remaining with
        | 0 => (res, some e)
        | r + 1 => execLoop cfg jsonCheck attempts (attempt + 1) r res (some e)
    | none =>
      let res := { res with
        success := isSuccessStatus cfg o.status
        responsePreview := truncateResponse o.body }
      let res :=
        if res.success && !cfg.success.responseKeys.isEmpty then
          { res with success := jsonCheck o.body }
        else res
      (res, lastErr)

/-- request.(*Client).Execute.  The final branch (set the category from
`lastErr` when it is still empty) is kept from the source even though a
non-nil `lastErr` always comes with a category already set. -/
def clientExecute (cfg : RequestConfig) (jsonCheck : String → Bool)
    (maxRetries : Nat) (attempts : Nat → AttemptOutcome) (requestID : String) :
    RequestResult :=
  let init : RequestResult :=
    { statusCode := 0, success := false, latencyMs := 0, retries := 0,
      errorCategory := "", errorDetail := "", responsePreview := "",
      requestID := requestID }
  let (res, lastErr) := execLoop cfg jsonCheck attempts 0 maxRetries init none
  match lastErr with
  | some e =>
    if res.errorCategory == "" then
      { res with errorCategory := categorizeError e, errorDetail := e }
    else res
  | none => res

/-- The pre-cap delay of request.(*Client).calculateBackoff, in seconds:
`2^attempt` seconds, plus or minus `r * 0.5` of itself, where `r` models the
`rand.Float64()` draw (`0 ≤ r < 1`) and `coin` models `rand.Float64() < 0.5`
choosing subtraction.  Floating-point rounding and the truncation of the
jitter to whole nanoseconds are below the granularity of every bound stated
here and are not modelled. -/
def rawBackoff (attempt : Nat) (r : ℚ) (coin : Bool) : ℚ :=
  let delay : ℚ := 2 ^ attempt
  let jitter := r * (1 / 2) * delay
  if coin then delay - jitter else delay + jitter

/-- request.(*Client).calculateBackoff: the jittered delay, capped at 30
seconds. -/
def calculateBackoff (attempt : Nat) (r : ℚ) (coin : Bool) : ℚ :=
  let d := rawBackoff attempt r coin
  if d > 30 then 30 else d

/-- An insertion into an ascending list of strings. -/
def insSorted (x : String) : List String → List String
  | [] => [x]
  | y :: rest => if x < y then x :: y :: rest else y :: insSorted x rest

/-- Ascending sort of the data keys.  The Go code reaches the same ascending
order with a hand-written bubble sort over the slice of map keys. -/
def sortStrings : List String → List String
  | [] => []
  | x :: rest => insSorted x (sortStrings rest)

/-- The `data:k=v` lines of both fingerprint functions, in ascending key
order. -/
def dataLines (data : RowData) : String :=
  String.join ((sortStrings (data.map Prod.fst)).map
    (fun k => "data:" ++ k ++ "=" ++ (mapFind data k).getD "" ++ "\n"))

/-- runner.(*Runner).generateRequestHash: SHA-256 over method, url and body
of the request config followed by the sorted row data.  The config headers
are not written into this hash. -/
def generateRequestHash (cfg : RequestConfig) (data : RowData) : String :=
  sha256hex ("method:" ++ cfg.method ++ "\n" ++
    "url:" ++ cfg.url ++ "\n" ++
    "body:" ++ cfg.body ++ "\n" ++
    dataLines data)

/-- request.(*TemplateRenderer).generateRequestHash (the renderer's own
variant, template.go): same preimage but with one `header:k=v` line per
config header between the body and the data.  The Runner overwrites the
rendered request's hash with its own `generateRequestHash`, so this digest
is not the idempotency key. -/
def templateGenerateRequestHash (cfg : RequestConfig) (data : RowData) : String :=
  sha256hex ("method:" ++ cfg.method ++ "\n" ++
    "url:" ++ cfg.url ++ "\n" ++
    "body:" ++ cfg.body ++ "\n" ++
    String.join (cfg.headers.map (fun kv => "header:" ++ kv.1 ++ "=" ++ kv.2 ++ "\n")) ++
    dataLines data)

/-- runner.RowTask. -/
structure RowTask where
  rowNumber : Nat
  data : RowData
  requestID : String
deriving Repr, DecidableEq

/-- The state threaded through the Runner: the RunResult counters, the
checkpoint set (idempotency index, membership semantics) and the shared
validator.  Wall-clock fields of RunResult are not modelled. -/
structure RunState where
  totalRows : Nat
  successRows : Nat
  failedRows : Nat
  skippedRows : Nat
  checkpoints : List String
  validator : Validator
deriving Repr, DecidableEq

/-- One callback invocation: `(row_number, ValidationReport, Outcome?)`. -/
abbrev Callback := Nat × ValidationResult × Option RequestResult

/-- The dummy RequestResult built for a template-render error (zero values
for the unset Go fields). -/
def templateErrorResult (requestID e : String) : RequestResult :=
  { statusCode := 0, success := false, latencyMs := 0, retries := 0,
    errorCategory := "template_error", errorDetail := e,
    responsePreview := "", requestID := requestID }

/-- The dummy RequestResult built for a validation failure. -/
def validationErrorResult (requestID : String) : RequestResult :=
  { statusCode := 0, success := false, latencyMs := 0, retries := 0,
    errorCategory := "validation_error", errorDetail := "Row validation failed",
    responsePreview := "", requestID := requestID }

/-- runner.(*Runner).processTask, sequentialized: validate, gate on the
fingerprint, render, execute, update the counters and the checkpoint set,
and emit the callback invocation (`none` when the code path returns without
calling it).  Rate-limiter waiting and context cancellation are timing
effects outside the embedding. -/
def processTask (p : Prims) (cfg : RequestConfig) (st : RunState) (task : RowTask) :
    RunState × Option Callback :=
  let (vr, val') := validateRow p st.validator task.rowNumber task.data
  if vr.valid then
    let h := generateRequestHash cfg vr.data
    if st.checkpoints.contains h then
      ({ st with validator := val', skippedRows := st.skippedRows + 1 }, none)
    else
      match p.render vr.data with
      | Except.error e =>
        ({ st with validator := val' },
         some (task.rowNumber, vr, some (templateErrorResult task.requestID e)))
      | Except.ok rd =>
        let rr := p.httpExecute { rd with hash := h } task.requestID
        if rr.success then
          ({ st with
              validator := val',
              checkpoints := st.checkpoints ++ [h],
              successRows := st.successRows + 1 },
           some (task.rowNumber, vr, some rr))
        else
          ({ st with validator := val', failedRows := st.failedRows + 1 },
           some (task.rowNumber, vr, some rr))
  else
    ({ st with validator := val', failedRows := st.failedRows + 1 },
     some (task.rowNumber, vr, some (validationErrorResult task.requestID)))

/-- runner.(*Runner).Run, sequentialized over the task list: the producer
increments TotalRows as each task is enqueued, a worker then runs
processTask on it.  Returns the final state and the callback invocations in
order. -/
def runAll (p : Prims) (cfg : RequestConfig) (st : RunState) :
    List RowTask → RunState × List Callback
  | [] => (st, [])
  | task :: rest =>
    let st1 := { st with totalRows := st.totalRows + 1 }
    let (st2, cb) := processTask p cfg st1 task
    let (st3, cbs) := runAll p cfg st2 rest
    (st3, cb.toList ++ cbs)

/-- The initial run state: zero counters, preloaded checkpoints (resume
mode; empty list when not resuming), fresh validator. -/
def initState (s : Schema) (preloaded : List String) : RunState :=
  { totalRows := 0, successRows := 0, failedRows := 0, skippedRows := 0,
    checkpoints := preloaded, validator := newValidator s }

/-- A concrete rendered request used when instantiating theorems. -/
def demoRendered : RenderedRequest :=
  { url := "https://api/x", method := "POST", headers := [], body := "",
    proxy := "", hash := "" }

/-- A concrete, fully computable instantiation of the external primitives,
used to evaluate the model at the concrete inputs of witnesses and
counterexamples (none of which depend on the primitive behaviour). -/
def demoPrims : Prims :=
  { atoiErr := fun _ => none
    parseFloatErr := fun _ => none
    decimalErr := fun _ => none
    dateErr := fun _ _ => none
    regexMatch := fun _ _ => Except.ok true
    evalRowRule := fun _ _ => true
    render := fun _ => Except.ok demoRendered
    httpExecute := fun _ rid =>
      { statusCode := 200, success := true, latencyMs := 0, retries := 0,
        errorCategory := "", errorDetail := "", responsePreview := "",
        requestID := rid } }

/-- demoPrims with a failing template renderer. -/
def failRenderPrims : Prims :=
  { demoPrims with render := fun _ => Except.error "template: execution failed" }

/-- A plain string column with no constraints. -/
def strCol (nm : String) : ColumnSchema :=
  { name := nm, colType := "string", required := false, secret := false,
    minLen := none, maxLen := none, regex := "", enum := [], format := "",
    preprocess := [], validators := [], transform := [], normalize := none }

/-- A schema with one unconstrained string column and a single-column
uniqueness rule on it. -/
def uniqSchema (c : String) (b : Bool) : Schema :=
  { version := 1, columns := [strCol c], rowRules := [],
    uniqueness := [⟨[c]⟩], nullPolicy := ⟨b⟩ }

/-- A schema with one unconstrained string column and nothing else. -/
def plainSchema : Schema :=
  { version := 1, columns := [strCol "x"], rowRules := [], uniqueness := [],
    nullPolicy := ⟨false⟩ }

/-- A schema whose single column has `min_len = 5`. -/
def minLenSchema : Schema :=
  { version := 1, columns := [{ strCol "email" with minLen := some 5 }],
    rowRules := [], uniqueness := [], nullPolicy := ⟨false⟩ }

/-- A column with `max_len = 1` and no other constraints. -/
def maxLen1Col : ColumnSchema :=
  { strCol "nick" with maxLen := some 1 }

/-- A column with `min_len = 2`, `max_len = 3` and no other constraints. -/
def len23Col : ColumnSchema :=
  { strCol "code" with minLen := some 2, maxLen := some 3 }

/-- A schema with one required string column. -/
def requiredSchema (b : Bool) : Schema :=
  { version := 1, columns := [{ strCol "email" with required := true }],
    rowRules := [], uniqueness := [], nullPolicy := ⟨b⟩ }

/-- A concrete request config. -/
def demoCfg : RequestConfig :=
  { method := "POST", url := "https://api/x", headers := [], body := "{}",
    proxy := "", success := ⟨[200], []⟩ }

/-- demoCfg with one Authorization header template. -/
def cfgHdr1 : RequestConfig :=
  { demoCfg with headers := [("Authorization", "Bearer one")] }

/-- demoCfg with a different Authorization header template. -/
def cfgHdr2 : RequestConfig :=
  { demoCfg with headers := [("Authorization", "Bearer two")] }

/-- A run state whose idempotency index is preloaded with the fingerprint of
the row `x = hello` under demoCfg (the resume scenario). -/
def skipState : RunState :=
  { totalRows := 0, successRows := 0, failedRows := 0, skippedRows := 0,
    checkpoints := [generateRequestHash demoCfg [("x", "hello")]],
    validator := newValidator plainSchema }

/-- The concrete row task used by the runner counterexamples. -/
def demoTask : RowTask :=
  { rowNumber := 1, data := [("x", "hello")], requestID := "req-1" }

/-- Numbers a list of single-column values into row tasks `(n0 + i, c = v)`. -/
def taggedRows (c : String) : Nat → List String → List (Nat × RowData)
  | _, [] => []
  | n0, v :: rest => (n0, [(c, v)]) :: taggedRows c (n0 + 1) rest

/-- The default result used with `List.getD` over run results. -/
def dfltRes : ValidationResult := { valid := true, errors := [], data := [] }

/-- The executor stub of spec scenario 3: attempts 0 and 1 answer HTTP 500,
attempt 2 answers HTTP 200; no transport errors. -/
def stub500 : Nat → AttemptOutcome :=
  fun n => if n ≤ 1 then ⟨500, "", none⟩ else ⟨200, "", none⟩

/-- The required string column of the C10 witness. -/
def reqCol : ColumnSchema :=
  { strCol "email" with required := true }

/-! ## Theorems and supporting lemmas -/

set_option maxRecDepth 10000 in
/-- FIPS 180-4 test vector validating the SHA-256 embedding. -/
theorem sha256hex_abc :
    sha256hex "abc" =
      "ba7816bf8f01cfea414140de5dae2223b00361a396177a9cb410ff61f20015ad" := by
  decide

theorem leadsWith_one (ds : List Char) :
    leadsWith ['0'] ds = true ↔ ds.take 1 = ['0'] := by
  cases ds with
  | nil => simp [leadsWith]
  | cons c cs =>
    show (('0' == c) && leadsWith [] cs) = true ↔ _
    simp [leadsWith, List.take]
    constructor
    · intro h; exact h.symm
    · intro h; exact h.symm

theorem leadsWith_two (ds : List Char) :
    leadsWith ['0', '1'] ds = true ↔ ds.take 2 = ['0', '1'] := by
  match ds with
  | [] => simp [leadsWith]
  | [c] => simp [leadsWith, List.take]
  | c :: d :: rest =>
    show (('0' == c) && (('1' == d) && leadsWith [] rest)) = true ↔ _
    simp [leadsWith, List.take]
    constructor
    · intro h; exact ⟨h.1.symm, h.2.symm⟩
    · intro h; exact ⟨h.1.symm, h.2.symm⟩

/-- C8: the validator's Korean-mobile E.164 transform and the template
function toE164KR compute the same result, and both match the spec's
description: strip non-digits; a 10-digit result starting `0` or an
11-digit result starting `01` becomes `+82` plus the digits with the
leading `0` dropped; anything else is returned as the stripped digits. -/
theorem C8_e164_agreement (s : String) :
    formatKoreanPhoneE164 s = specE164KR s ∧ toE164KR s = specE164KR s := by
  have core : ∀ t : String, formatKoreanPhoneE164 t = specE164KR t := by
    intro t
    unfold formatKoreanPhoneE164 specE164KR
    have h1 := leadsWith_one (t.toList.filter Char.isDigit)
    have h2 := leadsWith_two (t.toList.filter Char.isDigit)
    set ds := t.toList.filter Char.isDigit with hds
    dsimp only
    split_ifs with hA hB hC hD hE <;> simp_all
    tauto
  have hsame : toE164KR = formatKoreanPhoneE164 := rfl
  exact ⟨core s, by rw [hsame]; exact core s⟩

/-- C6 counterexample: at attempt 0 with random draw 0.75 and the additive
coin, the slept delay is 1.375 s — outside the 1.25 s that a ±25% jitter
around the 1 s base would allow, refuting "uniform jitter of at most ±25%".
The draw 0.75 and the 0.375 s jitter are exactly representable both in
binary floating point and in whole nanoseconds, so the rational model
evaluates the Go expression exactly. -/
theorem C6_jitter_outside_25pct :
    calculateBackoff 0 (3 / 4) false = 11 / 8 ∧
      ¬(calculateBackoff 0 (3 / 4) false ≤ 1 + 1 / 4) := by
  constructor <;> norm_num [calculateBackoff, rawBackoff]

/-- C6 amended: the pre-cap delay lies strictly between 50% and 150% of the
`2^attempt`-second base (the jitter magnitude is `rand * 50%` of the base,
not at most 25%), and the returned delay is capped at 30 seconds for every
attempt number, never falling below the smaller of half the base and the
cap. -/
theorem C6_backoff_bounds (a : Nat) (r : ℚ) (coin : Bool)
    (h0 : 0 ≤ r) (h1 : r < 1) :
    calculateBackoff a r coin ≤ 30 ∧
      (2 ^ a : ℚ) / 2 < rawBackoff a r coin ∧
      rawBackoff a r coin < 3 * (2 ^ a : ℚ) / 2 ∧
      min ((2 ^ a : ℚ) / 2) 30 ≤ calculateBackoff a r coin := by
  have hd : (0 : ℚ) < 2 ^ a := by positivity
  have hjlo : 0 ≤ r * (1 / 2) * (2 ^ a : ℚ) := by positivity
  have hjhi : r * (1 / 2) * (2 ^ a : ℚ) < (2 ^ a : ℚ) / 2 := by
    have : r * (1 / 2) * (2 ^ a : ℚ) < 1 * (1 / 2) * (2 ^ a : ℚ) := by
      apply mul_lt_mul_of_pos_right _ hd
      nlinarith
    nlinarith
  have hraw_lo : (2 ^ a : ℚ) / 2 < rawBackoff a r coin := by
    unfold rawBackoff
    cases coin <;> simp only [Bool.false_eq_true, if_true, if_false] <;> nlinarith
  have hraw_hi : rawBackoff a r coin < 3 * (2 ^ a : ℚ) / 2 := by
    unfold rawBackoff
    cases coin <;> simp only [Bool.false_eq_true, if_true, if_false] <;> nlinarith
  unfold calculateBackoff
  by_cases hcap : rawBackoff a r coin > 30
  · rw [if_pos hcap]
    refine ⟨le_refl 30, hraw_lo, hraw_hi, min_le_right _ _⟩
  · rw [if_neg hcap]
    push_neg at hcap
    exact ⟨hcap, hraw_lo, hraw_hi, le_trans (min_le_left _ _) (le_of_lt hraw_lo)⟩

/-- C6 witness: the amended bounds instantiated at attempt 5 with random
draw 0.5 and the subtracting coin. -/
theorem C6_backoff_bounds_witness :
    (0 : ℚ) ≤ 1 / 2 ∧ (1 / 2 : ℚ) < 1 ∧
      (calculateBackoff 5 (1 / 2) true ≤ 30 ∧
        (2 ^ 5 : ℚ) / 2 < rawBackoff 5 (1 / 2) true ∧
        rawBackoff 5 (1 / 2) true < 3 * (2 ^ 5 : ℚ) / 2 ∧
        min ((2 ^ 5 : ℚ) / 2) 30 ≤ calculateBackoff 5 (1 / 2) true) :=
  ⟨by norm_num, by norm_num,
   C6_backoff_bounds 5 (1 / 2) true (by norm_num) (by norm_num)⟩

/-- C9 counterexample: `é` is one Unicode code point, within the
`max_len = 1` bound the claim describes, yet validateValue rejects it as
too long because Go's `len` counts its two UTF-8 bytes. -/
theorem C9_codepoint_counterexample :
    ("é".toList.length : Int) ≤ 1 ∧
      validateValue demoPrims "é" maxLen1Col = some (tooLongMsg 1) := by
  constructor
  · decide
  · rfl

/-- C9 amended: with the type check passed and no regex/enum/custom
constraints, a value passes validateValue exactly when its UTF-8 byte count
(Go `len`), not its code-point count, lies within `min_len`/`max_len`. -/
theorem C9_length_uses_utf8_bytes (p : Prims) (col : ColumnSchema) (value : String)
    (htype : validateType p value col.colType col.format = none)
    (hre : col.regex = "") (hen : col.enum = []) (hva : col.validators = []) :
    validateValue p value col = none ↔
      (∀ m ∈ col.minLen, m ≤ (value.utf8ByteSize : Int)) ∧
      (∀ m ∈ col.maxLen, (value.utf8ByteSize : Int) ≤ m) := by
  simp only [validateValue, htype, lenCheck, hre, hen, hva, ne_eq,
    not_true_eq_false, if_false, customChecks]
  rcases hmin : col.minLen with _ | m <;> rcases hmax : col.maxLen with _ | mx <;>
    simp only [Option.mem_def, Option.some.injEq, forall_eq, false_implies,
      forall_const, true_and, and_true, reduceCtorEq] <;>
    (try split_ifs) <;> simp_all

/-- C9 witness: the amended length characterization instantiated at the
column `min_len = 2, max_len = 3` and the value `abc`. -/
theorem C9_length_uses_utf8_bytes_witness :
    validateType demoPrims "abc" len23Col.colType len23Col.format = none ∧
      len23Col.regex = "" ∧ len23Col.enum = [] ∧ len23Col.validators = [] ∧
      (validateValue demoPrims "abc" len23Col = none ↔
        (∀ m ∈ len23Col.minLen, m ≤ ("abc".utf8ByteSize : Int)) ∧
        (∀ m ∈ len23Col.maxLen, ("abc".utf8ByteSize : Int) ≤ m)) :=
  ⟨rfl, rfl, rfl, rfl,
   C9_length_uses_utf8_bytes demoPrims len23Col "abc" rfl rfl rfl rfl⟩

/-- C4 counterexample: two request configs that differ only in their headers
template produce the same preimage in the Runner's generateRequestHash —
which writes only method, url, body and the sorted row data — and therefore
the same fingerprint, refuting "changing the headers template changes the
fingerprint". -/
theorem C4_headers_not_in_fingerprint :
    cfgHdr1.headers ≠ cfgHdr2.headers ∧
      cfgHdr1.method = cfgHdr2.method ∧
      cfgHdr1.url = cfgHdr2.url ∧
      cfgHdr1.body = cfgHdr2.body ∧
      generateRequestHash cfgHdr1 [("x", "hello")] =
        generateRequestHash cfgHdr2 [("x", "hello")] := by
  refine ⟨by decide, rfl, rfl, rfl, rfl⟩

/-- C4 amended: the Runner's fingerprint is fully determined by (method, url
template, body template, normalized row data) — the headers template is not
an input — so any two rows with identical normalized data under configs
agreeing on those three fields receive equal fingerprints. -/
theorem C4_fingerprint_determined (c1 c2 : RequestConfig) (d1 d2 : RowData)
    (hm : c1.method = c2.method) (hu : c1.url = c2.url)
    (hb : c1.body = c2.body) (hd : d1 = d2) :
    generateRequestHash c1 d1 = generateRequestHash c2 d2 := by
  unfold generateRequestHash
  rw [hm, hu, hb, hd]

/-- C4 witness: the determination theorem applied to the two header-variant
configs and one concrete data row. -/
theorem C4_fingerprint_determined_witness :
    cfgHdr1.method = cfgHdr2.method ∧
      generateRequestHash cfgHdr1 [("x", "hello")] =
        generateRequestHash cfgHdr2 [("x", "hello")] :=
  ⟨rfl, C4_fingerprint_determined cfgHdr1 cfgHdr2 [("x", "hello")]
    [("x", "hello")] rfl rfl rfl rfl⟩

/-- C2: the spec's retry-then-success scenario (attempts answer 500, 500,
200) run through the embedded Execute loop: the first attempt's HTTP 500
response arrives without a transport error, so Execute takes the
no-error branch, classifies success against `status_in` and breaks — even
though shouldRetry classifies 500 as retryable.  The outcome is one
attempt, `retries = 0`, `success = false`, not the claimed two retries and
success. -/
theorem C2_http500_not_retried :
    shouldRetry none 500 = true ∧
      (clientExecute demoCfg (fun _ => true) 3 stub500 "req-1").retries = 0 ∧
      (clientExecute demoCfg (fun _ => true) 3 stub500 "req-1").success = false ∧
      (clientExecute demoCfg (fun _ => true) 3 stub500 "req-1").statusCode = 500 := by
  refine ⟨rfl, rfl, rfl, rfl⟩

/-- C3: a single valid row whose template rendering fails.  processTask
builds the `template_error` dummy outcome but increments none of
SuccessRows/FailedRows/SkippedRows, so the run ends with `total = 1` yet
`success + failed + skipped = 0`, violating the counter invariant. -/
theorem C3_template_error_breaks_counter_sum :
    (runAll failRenderPrims demoCfg (initState plainSchema []) [demoTask]).1.totalRows = 1 ∧
      (runAll failRenderPrims demoCfg (initState plainSchema []) [demoTask]).1.successRows +
        (runAll failRenderPrims demoCfg (initState plainSchema []) [demoTask]).1.failedRows +
        (runAll failRenderPrims demoCfg (initState plainSchema []) [demoTask]).1.skippedRows = 0 ∧
      ((runAll failRenderPrims demoCfg (initState plainSchema []) [demoTask]).2.map
        (fun cb => cb.2.2.map (fun rr => rr.errorCategory))) = [some "template_error"] := by
  refine ⟨rfl, rfl, rfl⟩

/-- C1 counterexample: a valid row whose fingerprint is already in the
idempotency index.  processTask increments SkippedRows and returns before
the callback, so the SKIPPED branch produces no callback at all — not the
claimed single callback with a null Outcome. -/
theorem C1_skipped_row_no_callback :
    (processTask demoPrims demoCfg skipState demoTask).2 = none ∧
      (processTask demoPrims demoCfg skipState demoTask).1.skippedRows = 1 := by
  have hv : validateRow demoPrims (newValidator plainSchema) 1 [("x", "hello")] =
      ({ valid := true, errors := [], data := [("x", "hello")] },
       newValidator plainSchema) := rfl
  have hc : List.contains [generateRequestHash demoCfg [("x", "hello")]]
      (generateRequestHash demoCfg [("x", "hello")]) = true := by
    simp [List.contains_cons]
  constructor <;> simp [processTask, demoTask, skipState, hv, hc]

theorem processTask_skip_or_callback (p : Prims) (cfg : RequestConfig)
    (st : RunState) (task : RowTask) :
    (processTask p cfg st task).1.skippedRows +
      (processTask p cfg st task).2.toList.length = st.skippedRows + 1 := by
  rcases h1 : validateRow p st.validator task.rowNumber task.data with ⟨vr, val⟩
  simp only [processTask, h1]
  by_cases hval : vr.valid
  · simp only [hval, if_true]
    by_cases hcp : generateRequestHash cfg vr.data ∈ st.checkpoints
    · simp [hcp]
    · cases hr : p.render vr.data with
      | error e => simp [hcp, hr]
      | ok rd =>
        by_cases hs :
            (p.httpExecute { rd with hash := generateRequestHash cfg vr.data }
              task.requestID).success <;>
          simp [hcp, hr, hs]
  · simp [hval]

/-- C1 amended: over any run, each received row either increments
SkippedRows (the fingerprint-already-seen branch, which returns before the
callback) or produces exactly one callback invocation: the final SkippedRows
count plus the number of callback invocations equals the number of received
rows. -/
theorem C1_one_callback_per_nonskipped_row (p : Prims) (cfg : RequestConfig)
    (tasks : List RowTask) (st : RunState) :
    (runAll p cfg st tasks).1.skippedRows + (runAll p cfg st tasks).2.length =
      st.skippedRows + tasks.length := by
  induction tasks generalizing st with
  | nil => simp [runAll]
  | cons t rest ih =>
    simp only [runAll]
    rcases hp : processTask p cfg { st with totalRows := st.totalRows + 1 } t with ⟨st2, cb⟩
    have hstep := processTask_skip_or_callback p cfg { st with totalRows := st.totalRows + 1 } t
    rw [hp] at hstep
    have hsk : ({ st with totalRows := st.totalRows + 1 } : RunState).skippedRows
        = st.skippedRows := rfl
    rw [hsk] at hstep
    rcases hr : runAll p cfg st2 rest with ⟨st3, cbs⟩
    have hih := ih st2
    rw [hr] at hih
    simp only [hp, hr, List.length_append, List.length_cons]
    cases cb with
    | none =>
      simp_all [Option.toList]
      omega
    | some c =>
      simp [Option.toList] at hstep hih ⊢
      omega

theorem runColumns_errors (p : Prims) (np : NullPolicy) (rowNum : Nat) (row : RowData) :
    ∀ (cols : List ColumnSchema) (accErr : List ValidationError) (accData : RowData),
      (runColumns p np rowNum row cols accErr accData).1 =
        accErr ++ cols.flatMap (fun col => (processColumn p np rowNum row col).1) := by
  intro cols
  induction cols with
  | nil => intro accErr accData; simp [runColumns]
  | cons col rest ih =>
    intro accErr accData
    simp only [runColumns]
    rcases hp : processColumn p np rowNum row col with ⟨errs, entry⟩
    simp only [hp]
    rw [ih]
    simp [hp, List.flatMap_cons, List.append_assoc]

theorem processColumn_column (p : Prims) (np : NullPolicy) (rowNum : Nat)
    (row : RowData) (col : ColumnSchema) :
    ∀ e ∈ (processColumn p np rowNum row col).1, e.column = col.name := by
  unfold processColumn
  dsimp only
  split_ifs <;> (try simp) <;> split <;> simp

theorem processColumn_required_empty (p : Prims) (np : NullPolicy) (rowNum : Nat)
    (row : RowData) (col : ColumnSchema) (hreq : col.required = true)
    (hval : (mapFind row col.name).getD "" = "") :
    processColumn p np rowNum row col =
      ([⟨rowNum, col.name, "", "required field is missing or empty"⟩], none) := by
  unfold processColumn
  rcases hf : mapFind row col.name with _ | w
  · simp [hf, hreq]
  · have hw : w = "" := by simpa [hf] using hval
    subst hw
    simp [hf, hreq]

theorem errsFilterNil (p : Prims) (np : NullPolicy) (rowNum : Nat) (row : RowData)
    (cname : String) :
    ∀ cols : List ColumnSchema, (∀ col ∈ cols, (col.name == cname) = false) →
      ((cols.flatMap fun col => (processColumn p np rowNum row col).1).filter
        (fun e => e.column == cname)) = [] := by
  intro cols
  induction cols with
  | nil => simp
  | cons col rest ih =>
    intro hall
    simp only [List.flatMap_cons, List.filter_append]
    rw [ih (fun c hc => hall c (List.mem_cons_of_mem col hc))]
    have hcol := hall col (List.mem_cons_self col rest)
    have : ((processColumn p np rowNum row col).1.filter
        (fun e => e.column == cname)) = [] := by
      apply List.filter_eq_nil_iff.mpr
      intro e he
      have hcc := processColumn_column p np rowNum row col e he
      rw [hcc]
      simp [hcol]
    simp [this]

theorem errsFilterSingle (p : Prims) (np : NullPolicy) (rowNum : Nat) (row : RowData)
    (cname : String) (err : ValidationError) (herr : err.column = cname) :
    ∀ (cols : List ColumnSchema) (c : ColumnSchema),
      cols.filter (fun col => col.name == cname) = [c] →
      processColumn p np rowNum row c = ([err], none) →
      ((cols.flatMap fun col => (processColumn p np rowNum row col).1).filter
        (fun e => e.column == cname)) = [err] := by
  intro cols
  induction cols with
  | nil => intro c hfil _; simp at hfil
  | cons col rest ih =>
    intro c hfil hproc
    by_cases hn : (col.name == cname) = true
    · simp only [List.filter_cons, hn, if_true] at hfil
      have hcol : col = c := (List.cons_eq_cons.mp hfil).1
      have hrest : rest.filter (fun col => col.name == cname) = [] :=
        (List.cons_eq_cons.mp hfil).2
      subst hcol
      simp only [List.flatMap_cons, List.filter_append, hproc]
      have hrestall : ∀ col2 ∈ rest, (col2.name == cname) = false := by
        intro col2 h2
        have := List.filter_eq_nil_iff.mp hrest col2 h2
        simpa using this
      rw [errsFilterNil p np rowNum row cname rest hrestall]
      simp [herr]
    · have hnf : (col.name == cname) = false := by simpa using hn
      simp only [List.filter_cons, hnf, Bool.false_eq_true, if_false] at hfil
      simp only [List.flatMap_cons, List.filter_append]
      rw [ih c hfil hproc]
      have hnil : (processColumn p np rowNum row col).1.filter
          (fun e => e.column == cname) = [] := by
        apply List.filter_eq_nil_iff.mpr
        intro e he
        have hcc := processColumn_column p np rowNum row col e he
        rw [hcc]
        exact fun hx => hn hx
      rw [hnil]
      simp

/-- C10: for a schema column that is required and appears once in the
schema, validating a row whose raw value for it is absent or the empty
string yields exactly one error for that column, with the message
"required field is missing or empty" — for either value of
`null_policy.treat_empty_as_null` (the schema, and with it the policy, is
arbitrary). -/
theorem C10_required_empty_single_error (p : Prims) (sch : Schema)
    (seen : List (String × String)) (rowNum : Nat) (row : RowData)
    (c : ColumnSchema) (hreq : c.required = true)
    (hval : (mapFind row c.name).getD "" = "")
    (huniq : sch.columns.filter (fun col => col.name == c.name) = [c]) :
    ((validateRow p ⟨sch, seen⟩ rowNum row).1.errors.filter
        (fun e => e.column == c.name)) =
      [⟨rowNum, c.name, "", "required field is missing or empty"⟩] := by
  have hproc := processColumn_required_empty p sch.nullPolicy rowNum row c hreq hval
  have hfil := errsFilterSingle p sch.nullPolicy rowNum row c.name
    ⟨rowNum, c.name, "", "required field is missing or empty"⟩ rfl
    sch.columns c huniq hproc
  have herrs := runColumns_errors p sch.nullPolicy rowNum row sch.columns [] []
  rcases hrc : runColumns p sch.nullPolicy rowNum row sch.columns [] [] with ⟨errs, data⟩
  rw [hrc] at herrs
  simp only [List.nil_append] at herrs
  have hne : errs ≠ [] := by
    intro hnil
    rw [hnil] at herrs
    rw [← herrs] at hfil
    simp at hfil
  simp only [validateRow, hrc]
  rw [if_neg (by simpa using hne)]
  simp only
  rw [herrs]
  exact hfil

/-- C10 witness: the single-error property applied to a one-column schema
requiring `email`, a row carrying the empty string, under
`treat_empty_as_null = true`. -/
theorem C10_required_empty_single_error_witness :
    reqCol.required = true ∧
      (mapFind [("email", "")] reqCol.name).getD "" = "" ∧
      (requiredSchema true).columns.filter (fun col => col.name == reqCol.name) = [reqCol] ∧
      ((validateRow demoPrims ⟨requiredSchema true, []⟩ 7 [("email", "")]).1.errors.filter
        (fun e => e.column == reqCol.name)) =
        [⟨7, reqCol.name, "", "required field is missing or empty"⟩] :=
  ⟨rfl, rfl, by decide,
   C10_required_empty_single_error demoPrims (requiredSchema true) [] 7
     [("email", "")] reqCol rfl rfl (by decide)⟩

theorem mapSet_fresh (k : String) (v : String) :
    ∀ l : List (String × String), (∀ kv ∈ l, kv.1 ≠ k) →
      mapSet l k v = l ++ [(k, v)] := by
  intro l
  induction l with
  | nil => intro _; rfl
  | cons kv rest ih =>
    intro hfresh
    rcases kv with ⟨k2, w⟩
    have hne : k2 ≠ k := hfresh (k2, w) (List.mem_cons_self _ _)
    simp only [mapSet, if_neg hne, List.cons_append]
    rw [ih (fun kv2 h2 => hfresh kv2 (List.mem_cons_of_mem _ h2))]

theorem runColumns_data (p : Prims) (np : NullPolicy) (rowNum : Nat) (row : RowData) :
    ∀ (cols : List ColumnSchema) (accErr : List ValidationError) (accData : RowData),
      (∀ col ∈ cols, ∀ kv ∈ accData, kv.1 ≠ col.name) →
      (cols.map (fun c => c.name)).Nodup →
      (runColumns p np rowNum row cols accErr accData).2 =
        accData ++ cols.filterMap
          (fun col => ((processColumn p np rowNum row col).2).map
            (fun v => (col.name, v))) := by
  intro cols
  induction cols with
  | nil => intro accErr accData _ _; simp [runColumns]
  | cons col rest ih =>
    intro accErr accData hfresh hnodup
    have hnodup2 := hnodup
    simp only [List.map_cons, List.nodup_cons, List.mem_map] at hnodup2
    have hrestnodup : (rest.map (fun c => c.name)).Nodup := hnodup2.2
    have hnotin : ∀ c2 ∈ rest, ¬c2.name = col.name := by
      intro c2 h2 hcontra
      exact hnodup2.1 ⟨c2, h2, hcontra⟩
    simp only [runColumns]
    rcases hp : processColumn p np rowNum row col with ⟨errs, entry⟩
    simp only [hp]
    cases entry with
    | none =>
      dsimp only
      rw [ih (accErr ++ errs) accData
        (fun c2 h2 kv hkv => hfresh c2 (List.mem_cons_of_mem _ h2) kv hkv) hrestnodup]
      simp [List.filterMap_cons, hp]
    | some v =>
      have hsetfresh : mapSet accData col.name v = accData ++ [(col.name, v)] :=
        mapSet_fresh col.name v accData
          (fun kv hkv => hfresh col (List.mem_cons_self _ _) kv hkv)
      dsimp only
      rw [hsetfresh]
      rw [ih (accErr ++ errs) (accData ++ [(col.name, v)]) ?hfr hrestnodup]
      · simp [List.filterMap_cons, hp, List.append_assoc]
      case hfr =>
        intro c2 h2 kv hkv
        rcases List.mem_append.mp hkv with hold | hnew
        · exact hfresh c2 (List.mem_cons_of_mem _ h2) kv hold
        · have hkveq : kv = (col.name, v) := by simpa using hnew
          rw [hkveq]
          intro hcontra
          exact hnotin c2 h2 hcontra.symm

theorem validateRow_data (p : Prims) (v : Validator) (rowNum : Nat) (row : RowData) :
    (validateRow p v rowNum row).1.data =
      (runColumns p v.schema.nullPolicy rowNum row v.schema.columns [] []).2 := by
  simp only [validateRow]
  rcases hrc : runColumns p v.schema.nullPolicy rowNum row v.schema.columns [] []
    with ⟨errs, data⟩
  rcases hcu : checkUniqueness v.schema rowNum data v.seen with ⟨seen2, uValid, uErrs⟩
  rcases hrr : runRowRules p rowNum data v.schema.rowRules with ⟨rValid, rErrs⟩
  simp only [hcu, hrr]
  split_ifs <;> rfl

/-- C5 counterexample: a row whose only column fails its `min_len = 5`
check.  The claim says the normalized data still contains the column with
its post-preprocess value; in fact the failing column is skipped, the data
map is empty and its keyset differs from the schema's column names. -/
theorem C5_failing_column_absent :
    ((validateRow demoPrims (newValidator minLenSchema) 1 [("email", "ab")]).1.data.map
        Prod.fst = ([] : List String)) ∧
      minLenSchema.columns.map (fun c => c.name) = ["email"] ∧
      (validateRow demoPrims (newValidator minLenSchema) 1 [("email", "ab")]).1.valid
        = false := by
  refine ⟨by decide, by decide, by decide⟩

/-- C5 amended: for schemas with distinct column names, the normalized data
contains exactly the columns whose per-column processing stored an entry, in
schema order: valid columns with their transformed value and absent optional
columns with the empty string.  Columns that fail the required check or fail
validation store nothing and are absent from the keyset. -/
theorem C5_data_keyset (p : Prims) (sch : Schema) (seen : List (String × String))
    (rowNum : Nat) (row : RowData)
    (hnodup : (sch.columns.map (fun c => c.name)).Nodup) :
    (validateRow p ⟨sch, seen⟩ rowNum row).1.data =
      sch.columns.filterMap
        (fun col => ((processColumn p sch.nullPolicy rowNum row col).2).map
          (fun v => (col.name, v))) := by
  rw [validateRow_data]
  have h := runColumns_data p sch.nullPolicy rowNum row sch.columns [] []
    (fun _ _ kv hkv => absurd hkv (List.not_mem_nil kv)) hnodup
  simpa using h

/-- C5 witness: the data characterization applied to the `min_len` schema
and the failing row. -/
theorem C5_data_keyset_witness :
    ((minLenSchema.columns.map (fun c => c.name)).Nodup) ∧
      (validateRow demoPrims ⟨minLenSchema, []⟩ 1 [("email", "ab")]).1.data =
        minLenSchema.columns.filterMap
          (fun col => ((processColumn demoPrims minLenSchema.nullPolicy 1
            [("email", "ab")] col).2).map (fun v => (col.name, v))) :=
  ⟨by decide, C5_data_keyset demoPrims minLenSchema [] 1 [("email", "ab")] (by decide)⟩

theorem uniqStep (p : Prims) (c : String) (b : Bool) (seen : List (String × String))
    (n : Nat) (v : String) :
    validateRow p ⟨uniqSchema c b, seen⟩ n [(c, v)] =
      (if v = "" then
        ({ valid := true, errors := [], data := [(c, v)] }, ⟨uniqSchema c b, seen⟩)
       else if (c, v) ∈ seen then
        ({ valid := false, errors := [⟨n, c, v, dupMsg⟩], data := [(c, v)] },
         ⟨uniqSchema c b, seen⟩)
       else
        ({ valid := true, errors := [], data := [(c, v)] },
         ⟨uniqSchema c b, (c, v) :: seen⟩)) := by
  by_cases hv : v = ""
  · subst hv
    simp [validateRow, runColumns, processColumn, uniqSchema, strCol, preprocess,
      transform, validateValue, validateType, lenCheck, customChecks,
      checkUniqueness, uniqCols, runRowRules, mapFind, mapSet]
  · by_cases hc : (c, v) ∈ seen
    · simp [validateRow, runColumns, processColumn, uniqSchema, strCol, preprocess,
        transform, validateValue, validateType, lenCheck, customChecks,
        checkUniqueness, uniqCols, runRowRules, mapFind, mapSet, hv, hc]
    · simp [validateRow, runColumns, processColumn, uniqSchema, strCol, preprocess,
        transform, validateValue, validateType, lenCheck, customChecks,
        checkUniqueness, uniqCols, runRowRules, mapFind, mapSet, hv, hc]

theorem runRows_uniq (p : Prims) (c : String) (b : Bool) :
    ∀ (vs : List String) (j n0 : Nat) (seen : List (String × String)),
      j < vs.length →
      (runRows p ⟨uniqSchema c b, seen⟩ (taggedRows c n0 vs)).getD j dfltRes =
        (if vs.getD j "" = "" ∨
            ((c, vs.getD j "") ∉ seen ∧ vs.getD j "" ∉ vs.take j) then
          { valid := true, errors := [], data := [(c, vs.getD j "")] }
         else
          { valid := false, errors := [⟨n0 + j, c, vs.getD j "", dupMsg⟩],
            data := [(c, vs.getD j "")] }) := by
  intro vs
  induction vs with
  | nil => intro j n0 seen hj; simp at hj
  | cons w rest ih =>
    intro j n0 seen hj
    simp only [taggedRows, runRows]
    rw [uniqStep p c b seen n0 w]
    by_cases hw : w = ""
    · subst hw
      rw [if_pos rfl]
      cases j with
      | zero => simp
      | succ j2 =>
        have hj2 : j2 < rest.length := by simpa using hj
        simp only [List.getD_cons_succ]
        rw [ih j2 (n0 + 1) seen hj2]
        set v := rest.getD j2 "" with hvdef
        refine if_congr ?_ rfl ?_
        · simp only [List.take_succ_cons, List.mem_cons, not_or]
          tauto
        · have harith : n0 + 1 + j2 = n0 + (j2 + 1) := by omega
          rw [harith]
    · by_cases hc : (c, w) ∈ seen
      · rw [if_neg hw, if_pos hc]
        cases j with
        | zero => simp [hw, hc]
        | succ j2 =>
          have hj2 : j2 < rest.length := by simpa using hj
          simp only [List.getD_cons_succ]
          rw [ih j2 (n0 + 1) seen hj2]
          set v := rest.getD j2 "" with hvdef
          refine if_congr ?_ rfl ?_
          · by_cases hvw : v = w
            · rw [hvw]
              simp only [List.take_succ_cons, List.mem_cons, not_or]
              simp [hc, hw]
            · simp only [List.take_succ_cons, List.mem_cons, not_or]
              tauto
          · have harith : n0 + 1 + j2 = n0 + (j2 + 1) := by omega
            rw [harith]
      · rw [if_neg hw, if_neg hc]
        cases j with
        | zero => simp [hw, hc]
        | succ j2 =>
          have hj2 : j2 < rest.length := by simpa using hj
          simp only [List.getD_cons_succ]
          rw [ih j2 (n0 + 1) ((c, w) :: seen) hj2]
          set v := rest.getD j2 "" with hvdef
          refine if_congr ?_ rfl ?_
          · simp only [List.take_succ_cons, List.mem_cons, not_or,
              Prod.mk.injEq, true_and]
            tauto
          · have harith : n0 + 1 + j2 = n0 + (j2 + 1) := by omega
            rw [harith]

/-- C7: over a run of the validator on rows of a single uniqueness-tracked
unconstrained string column (any column name, any null policy, any
primitives, any value sequence), row j passes validation exactly when its
value is empty or no earlier row carried the same value — the first
occurrence of each non-empty value is accepted and recorded, empty values
never trigger uniqueness errors — and every later duplicate fails with
exactly the duplicate-value error for that column. -/
theorem C7_uniqueness_first_wins (p : Prims) (c : String) (b : Bool)
    (vs : List String) (j : Nat) (hj : j < vs.length) :
    (((runRows p (newValidator (uniqSchema c b)) (taggedRows c 1 vs)).getD j
        dfltRes).valid = true ↔
      (vs.getD j "" = "" ∨ vs.getD j "" ∉ vs.take j)) ∧
      (¬(vs.getD j "" = "" ∨ vs.getD j "" ∉ vs.take j) →
        (runRows p (newValidator (uniqSchema c b)) (taggedRows c 1 vs)).getD j
            dfltRes =
          { valid := false, errors := [⟨1 + j, c, vs.getD j "", dupMsg⟩],
            data := [(c, vs.getD j "")] }) := by
  have h := runRows_uniq p c b vs j 1 [] hj
  have hnv : (newValidator (uniqSchema c b)) = (⟨uniqSchema c b, []⟩ : Validator) := rfl
  rw [hnv, h]
  by_cases hcv : vs.getD j "" = "" ∨ vs.getD j "" ∉ vs.take j
  · rw [if_pos (hcv.elim Or.inl (fun hx => Or.inr ⟨List.not_mem_nil _, hx⟩))]
    constructor
    · exact iff_of_true rfl hcv
    · intro hneg; exact absurd hcv hneg
  · rw [if_neg (fun hcon => hcv (hcon.elim Or.inl (fun hx => Or.inr hx.2)))]
    constructor
    · exact iff_of_false (by simp) hcv
    · intro _; rfl

/-- C7 witness: the first-wins characterization instantiated at the value
sequence `a, a` and row index 1 (the duplicate row). -/
theorem C7_uniqueness_first_wins_witness :
    1 < (["a", "a"] : List String).length ∧
      ((((runRows demoPrims (newValidator (uniqSchema "phone" false))
            (taggedRows "phone" 1 ["a", "a"])).getD 1 dfltRes).valid = true ↔
          ((["a", "a"] : List String).getD 1 "" = "" ∨
            (["a", "a"] : List String).getD 1 "" ∉ (["a", "a"] : List String).take 1)) ∧
        (¬((["a", "a"] : List String).getD 1 "" = "" ∨
            (["a", "a"] : List String).getD 1 "" ∉ (["a", "a"] : List String).take 1) →
          (runRows demoPrims (newValidator (uniqSchema "phone" false))
            (taggedRows "phone" 1 ["a", "a"])).getD 1 dfltRes =
            { valid := false,
              errors := [⟨1 + 1, "phone", (["a", "a"] : List String).getD 1 "", dupMsg⟩],
              data := [("phone", (["a", "a"] : List String).getD 1 "")] })) :=
  ⟨by decide, C7_uniqueness_first_wins demoPrims "phone" false ["a", "a"] 1 (by decide)⟩
